import Mathlib

/-!
# Verification of the metis parsing/serialization engine

A shallow embedding of the metis crate (a Turtle/Notation3 parser and
streaming serializer) together with proofs about its parse context,
grammar productions, statement iterator and serializer.

Conventions:
* Rust strings are embedded as `List Char` (`Str` below).
* `&mut self` methods become explicit state passing; a method returning
  `Result<T, E>` while possibly mutating `self` becomes a function
  returning the pair of an `Except` and the new state.
* `RefCell<Context>` shared by the nom productions becomes a `Context`
  value threaded through every production in source call order; the
  context is returned from a production even when it fails, because a
  `RefCell` keeps mutations that happened before the failure.
* The terminal scanners of `turtle/parse/terminals.rs` (anchored
  regular expressions and small nom functions) are embedded as
  executable scanners over `List Char`.
* Names follow the source, except that names that the verification
  environment cannot accept are renamed (`add_prefix` ↦ `addPfx`,
  `prefix_id` ↦ `prefixId`, `PN_PREFIX` ↦ `pnPfxScan`, ...); each such
  definition's doc comment names the source item it embeds.
-/

namespace Metis

/-- Rust `&str` slices are embedded as lists of characters. -/
abbrev Str := List Char

/-! ## IRI reference resolution

`Prolog::set_base` and `Prolog::resolve` (src/common/prolog.rs) delegate
the actual reference-resolution algebra to `sophia_term`'s
`IriParsed::resolve`, an external collaborator of the crate.  The
component split and the resolution transform are modelled from the
spec: "standard reference-resolution algebra (scheme/authority/path/
query/fragment merging; relative paths merged against base's path with
`.`/`..` removal)" (spec §4.1), i.e. RFC 3986 §5.2.
-/

/-- Modelled from the spec: the decomposed form of an IRI
(`sophia_term::iri::IriParsed`, external to this repository):
scheme, authority, path, query and fragment components. -/
structure IriParsed where
  scheme : Option Str
  authority : Option Str
  path : Str
  query : Option Str
  fragment : Option Str
deriving DecidableEq, Repr

/-- Split a leading `scheme:` component (RFC 3986 appendix B). -/
def splitScheme (i : Str) : Option Str × Str :=
  let run := i.takeWhile (fun c => !(c == ':' || c == '/' || c == '?' || c == '#'))
  match i.drop run.length with
  | ':' :: r => if run.isEmpty then (none, i) else (some run, r)
  | _ => (none, i)

/-- Split a leading `//authority` component (RFC 3986 appendix B). -/
def splitAuthority : Str → Option Str × Str
  | '/' :: '/' :: r =>
    let a := r.takeWhile (fun c => !(c == '/' || c == '?' || c == '#'))
    (some a, r.drop a.length)
  | i => (none, i)

/-- Split the path component (up to `?` or `#`). -/
def splitPath (i : Str) : Str × Str :=
  let p := i.takeWhile (fun c => !(c == '?' || c == '#'))
  (p, i.drop p.length)

/-- Split a leading `?query` component. -/
def splitQuery : Str → Option Str × Str
  | '?' :: r =>
    let q := r.takeWhile (fun c => !(c == '#'))
    (some q, r.drop q.length)
  | i => (none, i)

/-- Split a leading `#fragment` component. -/
def splitFragment : Str → Option Str
  | '#' :: r => some r
  | _ => none

/-- Modelled from the spec: decompose an IRI reference into its five
components (`Iri::parse_components` via `sophia_term`). -/
def parseComponents (i : Str) : IriParsed :=
  let (scheme, r1) := splitScheme i
  let (authority, r2) := splitAuthority r1
  let (path, r3) := splitPath r2
  let (query, r4) := splitQuery r3
  let fragment := splitFragment r4
  ⟨scheme, authority, path, query, fragment⟩

/-- Drop the last path segment and its preceding `/` (RFC 3986 §5.2.4
step 2C's output-buffer operation). -/
def stripLastSegment (out : Str) : Str :=
  ((out.reverse.dropWhile (fun c => c ≠ '/')).drop 1).reverse

/-- RFC 3986 §5.2.4 `remove_dot_segments`, with explicit fuel (each
step consumes input, so `i.length + 1` steps suffice). -/
def removeDotSegmentsGo : Nat → Str → Str → Str
  | 0, _, out => out
  | fuel + 1, i, out =>
    match i with
    | [] => out
    | '.' :: '.' :: '/' :: r => removeDotSegmentsGo fuel r out
    | '.' :: '/' :: r => removeDotSegmentsGo fuel r out
    | '/' :: '.' :: '/' :: r => removeDotSegmentsGo fuel ('/' :: r) out
    | ['/', '.'] => removeDotSegmentsGo fuel ['/'] out
    | '/' :: '.' :: '.' :: '/' :: r =>
      removeDotSegmentsGo fuel ('/' :: r) (stripLastSegment out)
    | ['/', '.', '.'] => removeDotSegmentsGo fuel ['/'] (stripLastSegment out)
    | ['.'] => removeDotSegmentsGo fuel [] out
    | ['.', '.'] => removeDotSegmentsGo fuel [] out
    | c :: r =>
      let seg := r.takeWhile (fun d => d ≠ '/')
      removeDotSegmentsGo fuel (r.drop seg.length) (out ++ c :: seg)

/-- RFC 3986 §5.2.4 `remove_dot_segments`. -/
def removeDotSegments (i : Str) : Str :=
  removeDotSegmentsGo (i.length + 1) i []

/-- The base path up to and including its last `/` (used by path
merging, RFC 3986 §5.2.3). -/
def upToLastSlash (p : Str) : Str :=
  (p.reverse.dropWhile (fun c => c ≠ '/')).reverse

/-- RFC 3986 §5.2.3 `merge`: merge a relative path with the base path. -/
def mergePaths (base : IriParsed) (rPath : Str) : Str :=
  if base.authority.isSome && base.path.isEmpty then
    '/' :: rPath
  else
    upToLastSlash base.path ++ rPath

/-- Modelled from the spec: RFC 3986 §5.2.2 transform-references, the
core of `IriParsed::resolve`. -/
def resolveComponents (base r : IriParsed) : IriParsed :=
  if r.scheme.isSome then
    ⟨r.scheme, r.authority, removeDotSegments r.path, r.query, r.fragment⟩
  else if r.authority.isSome then
    ⟨base.scheme, r.authority, removeDotSegments r.path, r.query, r.fragment⟩
  else if r.path.isEmpty then
    ⟨base.scheme, base.authority, base.path,
      (if r.query.isSome then r.query else base.query), r.fragment⟩
  else if r.path.head? = some '/' then
    ⟨base.scheme, base.authority, removeDotSegments r.path, r.query, r.fragment⟩
  else
    ⟨base.scheme, base.authority,
      removeDotSegments (mergePaths base r.path), r.query, r.fragment⟩

/-- RFC 3986 §5.3 recomposition of components into an IRI string. -/
def recompose (c : IriParsed) : Str :=
  (match c.scheme with | some s => s ++ [':'] | none => [])
    ++ (match c.authority with | some a => '/' :: '/' :: a | none => [])
    ++ c.path
    ++ (match c.query with | some q => '?' :: q | none => [])
    ++ (match c.fragment with | some f => '#' :: f | none => [])

/-- Embeds `sophia_term::iri::Iri<MownStr>`: an IRI value split into a
namespace part and an optional suffix part (external term library;
only the fields the crate reads are modelled). -/
structure SIri where
  ns : Str
  suffix : Option Str
deriving DecidableEq, Repr

/-- The full text of the IRI: namespace plus suffix. -/
def SIri.value (i : SIri) : Str := i.ns ++ i.suffix.getD []

/-- Embeds `Iri::has_suffix`: whether the IRI carries a suffix part. -/
def SIri.hasSuffix (i : SIri) : Bool := i.suffix.isSome

/-- Modelled from the spec: `IriParsed::resolve` applied to an `Iri`:
parse the reference's text, run the RFC 3986 transform against the
base, recompose (the result carries no suffix split). -/
def IriParsed.resolveIri (base : IriParsed) (other : SIri) : SIri :=
  ⟨recompose (resolveComponents base (parseComponents other.value)), none⟩

/-- Modelled from the spec: `IriParsed::resolve` applied to a raw
namespace string. -/
def IriParsed.resolveStr (base : IriParsed) (other : Str) : Str :=
  recompose (resolveComponents base (parseComponents other))

/-- Embeds `sophia_term::TermError` (only the variant `set_base`
produces). -/
inductive TermError where
  | invalidIri (msg : Str)
deriving DecidableEq, Repr

/-- Embeds `Prolog` (src/common/prolog.rs): optional base IRI (paired
with its decomposed form) and the namespace table.  The `HashMap` is
embedded as an association list with replacing insertion. -/
structure Prolog where
  base : Option (SIri × IriParsed)
  prefixes : List (Str × Str)
deriving DecidableEq, Repr

/-- Embeds `Prolog::default`: completely empty, neither base nor
prefixes. -/
def Prolog.empty : Prolog := ⟨none, []⟩

/-- Association-list lookup, embedding `HashMap::get`. -/
def lookupNs : List (Str × Str) → Str → Option Str
  | [], _ => none
  | (k, v) :: rest, p => if k = p then some v else lookupNs rest p

/-- Association-list insertion with replacement, embedding
`HashMap::insert`. -/
def insertNs : List (Str × Str) → Str → Str → List (Str × Str)
  | [], p, ns => [(p, ns)]
  | (k, v) :: rest, p, ns =>
    if k = p then (p, ns) :: rest else (k, v) :: insertNs rest p ns

/-- Embeds `Prolog::set_base` (src/common/prolog.rs lines 71-92): a
suffixed candidate is rejected with a `TermError::InvalidIri`; otherwise
the candidate is resolved against the current base (if any), its
components are parsed, and the pair replaces any previous base.  The
mutable receiver is returned alongside the `Result`. -/
def Prolog.set_base (p : Prolog) (base : SIri) : Except TermError Unit × Prolog :=
  if base.hasSuffix then
    (.error (.invalidIri "Base IRIs must not be suffixed".data), p)
  else
    let base :=
      match p.base with
      | some (_, oBase) => oBase.resolveIri base
      | none => base
    let parsed := parseComponents base.value
    (.ok (), { p with base := some (base, parsed) })

/-- Embeds `Prolog::resolve` (src/common/prolog.rs lines 186-199):
resolve against the base IRI, or return the reference unchanged if no
base IRI is set. -/
def Prolog.resolve (p : Prolog) (other : SIri) : SIri :=
  match p.base with
  | some (_, base) => base.resolveIri other
  | none => other

/-- `Prolog::resolve` at a raw namespace string (the instantiation
`add_prefix` uses). -/
def Prolog.resolveStr (p : Prolog) (other : Str) : Str :=
  match p.base with
  | some (_, base) => base.resolveStr other
  | none => other

/-- The resolved form `set_base` stores for an unsuffixed candidate:
the candidate resolved against the current base if one is set. -/
def Prolog.resolvedCandidate (p : Prolog) (c : SIri) : SIri :=
  match p.base with
  | some (_, oBase) => oBase.resolveIri c
  | none => c

/-- C4: setting a new base IRI resolves the candidate against the
current base before storing it, so base changes are cumulative: after
`set_base(<http://a/b/>)` then `set_base(<c/>)`, resolving the relative
reference `<d>` yields `http://a/b/c/d`; and `resolve` returns a
reference unchanged whenever no base is set. -/
theorem set_base_cumulative_resolve :
    ((Prolog.set_base (Prolog.set_base Prolog.empty ⟨"http://a/b/".data, none⟩).2
        ⟨"c/".data, none⟩).2.resolve ⟨"d".data, none⟩
      = ⟨"http://a/b/c/d".data, none⟩)
    ∧ (∀ (p : Prolog) (r : SIri), p.base = none → p.resolve r = r) := by
  constructor
  · decide
  · intro p r h
    simp [Prolog.resolve, h]

/-- Witness for C4: the no-base branch of `resolve` at a concrete
prolog and reference. -/
theorem set_base_cumulative_resolve_witness :
    Prolog.empty.resolve ⟨"x".data, none⟩ = ⟨"x".data, none⟩ :=
  set_base_cumulative_resolve.2 Prolog.empty ⟨"x".data, none⟩ rfl

/-- C5: a base candidate with a non-empty suffix is rejected by
`set_base` with the invalid-base error and the prolog is left
unchanged; a candidate without a suffix is accepted, and the previous
base is replaced by the candidate resolved against the current base,
stored together with its decomposed components. -/
theorem set_base_suffix_check :
    (∀ (p : Prolog) (c : SIri) (s : Str), c.suffix = some s → s ≠ [] →
      p.set_base c = (.error (.invalidIri "Base IRIs must not be suffixed".data), p))
    ∧ (∀ (p : Prolog) (c : SIri), c.suffix = none →
      p.set_base c =
        (.ok (), { p with base := some (p.resolvedCandidate c,
          parseComponents (p.resolvedCandidate c).value) })) := by
  constructor
  · intro p c s hs _
    simp [Prolog.set_base, SIri.hasSuffix, hs]
  · intro p c hc
    cases hb : p.base with
    | none => simp [Prolog.set_base, SIri.hasSuffix, hc, Prolog.resolvedCandidate, hb]
    | some x =>
      cases x with
      | mk v parsed =>
        simp [Prolog.set_base, SIri.hasSuffix, hc, Prolog.resolvedCandidate, hb]

/-- Witness for C5: a concrete suffixed candidate is rejected leaving
the prolog unchanged, and a concrete unsuffixed candidate is stored. -/
theorem set_base_suffix_check_witness :
    (Prolog.empty.set_base ⟨"http://x/".data, some "y".data⟩
      = (.error (.invalidIri "Base IRIs must not be suffixed".data), Prolog.empty))
    ∧ (Prolog.empty.set_base ⟨"http://x/".data, none⟩
      = (.ok (), { Prolog.empty with
          base := some (Prolog.empty.resolvedCandidate ⟨"http://x/".data, none⟩,
            parseComponents (Prolog.empty.resolvedCandidate ⟨"http://x/".data, none⟩).value) })) :=
  ⟨set_base_suffix_check.1 Prolog.empty ⟨"http://x/".data, some "y".data⟩ "y".data rfl
      (by decide),
    set_base_suffix_check.2 Prolog.empty ⟨"http://x/".data, none⟩ rfl⟩

/-! ## RDF terms and the parse context -/

/-- Embeds `sophia::term::Term` as used by the Turtle parser
(`CowTerm`): IRIs (namespace plus optional suffix, as produced by
`new_iri_unchecked` / `new_iri2_unchecked`), blank nodes, and literals
with a datatype or a language tag. -/
inductive RTerm where
  | iri (ns : Str) (suffix : Option Str)
  | bnode (label : Str)
  | litDT (txt : Str) (dt : RTerm)
  | litLang (txt : Str) (lang : Str)
deriving DecidableEq, Repr

/-- A subject-predicate-object triple (`[Term; 3]` in the source). -/
structure Triple3 (τ : Type) where
  s : τ
  p : τ
  o : τ
deriving DecidableEq, Repr

/-- An RDF triple over parser terms. -/
abbrev Triple := Triple3 RTerm

/-- `rdf` vocabulary namespace (sophia's static table). -/
def rdfNs : Str := "http://www.w3.org/1999/02/22-rdf-syntax-ns#".data

/-- `xsd` vocabulary namespace (sophia's static table). -/
def xsdNs : Str := "http://www.w3.org/2001/XMLSchema#".data

/-- `rdf:first`. -/
def rdfFirst : RTerm := .iri rdfNs (some "first".data)

/-- `rdf:rest`. -/
def rdfRest : RTerm := .iri rdfNs (some "rest".data)

/-- `rdf:nil`. -/
def rdfNil : RTerm := .iri rdfNs (some "nil".data)

/-- `rdf:type`. -/
def rdfType : RTerm := .iri rdfNs (some "type".data)

/-- `xsd:integer`. -/
def xsdInteger : RTerm := .iri xsdNs (some "integer".data)

/-- `xsd:decimal`. -/
def xsdDecimal : RTerm := .iri xsdNs (some "decimal".data)

/-- `xsd:double`. -/
def xsdDouble : RTerm := .iri xsdNs (some "double".data)

/-- `xsd:boolean`. -/
def xsdBoolean : RTerm := .iri xsdNs (some "boolean".data)

/-- `xsd:string`. -/
def xsdString : RTerm := .iri xsdNs (some "string".data)

/-- Embeds `Context` (src/parse.rs lines 16-29): the prolog of
prefixes and base, the blank-node counter, and the FIFO queue of
pending triples (`triple_stack: VecDeque`, pushed at the back, popped
at the front). -/
structure Context where
  prolog : Prolog
  bnode_cnt : Nat
  triple_stack : List Triple
deriving DecidableEq, Repr

/-- Embeds `Context::default`: empty prolog, counter 0, empty queue. -/
def Context.init : Context := ⟨Prolog.empty, 0, []⟩

/-- Embeds `Context::new_labeled_bnode` (src/parse.rs lines 56-60):
increments the blank-node counter, then wraps the scanner-given label
unchecked. -/
def Context.new_labeled_bnode (ctx : Context) (label : Str) : RTerm × Context :=
  (.bnode label, { ctx with bnode_cnt := ctx.bnode_cnt + 1 })

/-- Embeds `Context::new_anon_bnode` (src/parse.rs lines 61-65):
formats the label `anon{cnt}` from the current counter, then
increments the counter. -/
def Context.new_anon_bnode (ctx : Context) : RTerm × Context :=
  (.bnode ("anon".data ++ Nat.toDigits 10 ctx.bnode_cnt),
    { ctx with bnode_cnt := ctx.bnode_cnt + 1 })

/-- Embeds `Context::new_iri` (src/parse.rs lines 66-69): wrap the
scanner-validated text as an IRI and resolve it against the prolog. -/
def Context.new_iri (ctx : Context) (iri : Str) : RTerm :=
  let r := ctx.prolog.resolve ⟨iri, none⟩
  .iri r.ns r.suffix

/-- Embeds `Context::pop_triple` (src/parse.rs lines 70-72):
`VecDeque::pop_front`. -/
def Context.pop_triple (ctx : Context) : Option Triple × Context :=
  match ctx.triple_stack with
  | [] => (none, ctx)
  | t :: rest => (some t, { ctx with triple_stack := rest })

/-- Embeds `Context::push_triple` (src/parse.rs lines 73-75):
`VecDeque::push_back`. -/
def Context.push_triple (ctx : Context) (t : Triple) : Context :=
  { ctx with triple_stack := ctx.triple_stack ++ [t] }

/-- Embeds `Context::push_triples` (src/parse.rs lines 76-78):
`VecDeque::extend`. -/
def Context.push_triples (ctx : Context) (ts : List Triple) : Context :=
  { ctx with triple_stack := ctx.triple_stack ++ ts }

/-! ## Terminal scanners

Embeddings of the anchored regular expressions and small nom functions
of src/metis/src/turtle/parse/terminals.rs (also referenced by the
productions under src/metis/src/parse/).  Each scanner returns the
remaining input and the matched text, like `parse_regex`.
-/

/-- `c` lies in the inclusive code-point range. -/
def inRange (c : Char) (lo hi : Nat) : Bool :=
  lo ≤ c.toNat && c.toNat ≤ hi

/-- ASCII digit. -/
def isDigitC (c : Char) : Bool := inRange c 48 57

/-- ASCII letter. -/
def isAlphaC (c : Char) : Bool := inRange c 65 90 || inRange c 97 122

/-- ASCII letter or digit. -/
def isAlnumC (c : Char) : Bool := isAlphaC c || isDigitC c

/-- Hexadecimal digit. -/
def isHexC (c : Char) : Bool := isDigitC c || inRange c 65 70 || inRange c 97 102

/-- The char class of the `PN_CHARS_BASE` terminal. -/
def isPnCharsBase (c : Char) : Bool :=
  isAlphaC c || inRange c 0xC0 0xD6 || inRange c 0xD8 0xF6 || inRange c 0xF8 0x2FF
    || inRange c 0x370 0x37D || inRange c 0x37F 0x1FFF || inRange c 0x200C 0x200D
    || inRange c 0x2070 0x218F || inRange c 0x2C00 0x2FEF || inRange c 0x3001 0xD7FF
    || inRange c 0xF900 0xFDCF || inRange c 0xFDF0 0xFFFD || inRange c 0x10000 0xEFFFF

/-- The char class of the `PN_CHARS_U` terminal. -/
def isPnCharsU (c : Char) : Bool := isPnCharsBase c || c == '_'

/-- The char class of the `PN_CHARS` terminal. -/
def isPnChars (c : Char) : Bool :=
  isPnCharsU c || c == '-' || isDigitC c || c.toNat == 0xB7
    || inRange c 0x300 0x36F || inRange c 0x203F 0x2040

/-- A char allowed unescaped inside `IRIREF`: anything except control
characters, space, and the eight excluded punctuation characters (the
braces and the backtick are written by code point). -/
def isIriChar (c : Char) : Bool :=
  0x21 ≤ c.toNat
    && !(c == '<' || c == '>' || c == '\"' || c == Char.ofNat 123
      || c == Char.ofNat 125 || c == '|' || c == '^' || c == Char.ofNat 96
      || c == '\\')

/-- Embeds the `IRIREF` terminal: `<` then allowed chars or `\uXXXX` /
`\UXXXXXXXX` numeric escapes, closed by `>`.  Returns the match
including the angle brackets. -/
def scanIrirefGo : Nat → Str → Str → Option (Str × Str)
  | 0, _, _ => none
  | _ + 1, [], _ => none
  | fuel + 1, c :: r, acc =>
    if c == '>' then some (r, acc ++ ['>'])
    else if c == '\\' then
      match r with
      | 'u' :: a :: b :: c2 :: d :: rr =>
        if isHexC a && isHexC b && isHexC c2 && isHexC d then
          scanIrirefGo fuel rr (acc ++ ['\\', 'u', a, b, c2, d])
        else none
      | 'U' :: a :: b :: c2 :: d :: e :: f :: g :: h :: rr =>
        if isHexC a && isHexC b && isHexC c2 && isHexC d
            && isHexC e && isHexC f && isHexC g && isHexC h then
          scanIrirefGo fuel rr (acc ++ ['\\', 'U', a, b, c2, d, e, f, g, h])
        else none
      | _ => none
    else if isIriChar c then scanIrirefGo fuel r (acc ++ [c])
    else none

/-- Embeds the `IRIREF` terminal (see `scanIrirefGo`). -/
def scanIriref : Str → Option (Str × Str)
  | '<' :: r => scanIrirefGo (r.length + 1) r ['<']
  | _ => none

/-- Strip trailing dots (the backtracking of the `PN_PREFIX` regex's
final mandatory `PN_CHARS`). -/
def dropTrailingDots (s : Str) : Str :=
  (s.reverse.dropWhile (fun c => c == '.')).reverse

/-- Embeds the `PN_PREFIX` terminal: a `PN_CHARS_BASE` char followed
by `PN_CHARS`/`.` chars not ending in a dot. -/
def scanPnPfx : Str → Option (Str × Str)
  | [] => none
  | c :: r =>
    if isPnCharsBase c then
      let run := r.takeWhile (fun d => isPnChars d || d == '.')
      let keep := dropTrailingDots run
      some (r.drop keep.length, c :: keep)
    else none

/-- Embeds the `PNAME_NS` terminal: `(PN_PREFIX)? ':'`.  When the
optional prefix matched but no colon follows, no shorter match exists
either (the run of prefix chars is only stopped by a char outside the
class, and `:` is outside the class), so the scan fails like the
regex. -/
def scanPnameNs (i : Str) : Option (Str × Str) :=
  match scanPnPfx i with
  | some (rest, m) =>
    match rest with
    | ':' :: r2 => some (r2, m ++ [':'])
    | _ => none
  | none =>
    match i with
    | ':' :: r => some (r, [':'])
    | _ => none

/-- The characters escapable by `PN_LOCAL_ESC`/`PLX`. -/
def pnLocalEscChars : Str :=
  ['-', '_', '~', '.', '!', '$', '&', Char.ofNat 39, '#', '(', ')', '*',
    '+', ',', ';', '=', '/', '?', '@', '%']

/-- Embeds the `PLX` terminal: `%HH` or a backslash escape. -/
def scanPlx : Str → Option (Str × Str)
  | '%' :: a :: b :: r =>
    if isHexC a && isHexC b then some (r, ['%', a, b]) else none
  | '\\' :: c :: r =>
    if pnLocalEscChars.contains c then some (r, ['\\', c]) else none
  | _ => none

/-- First unit of the nom function `pn_local`:
`PN_CHARS_U | ':' | digit | PLX`. -/
def scanPnLocalFirst (i : Str) : Option (Str × Str) :=
  match i with
  | c :: r =>
    if isPnCharsU c || c == ':' || isDigitC c then some (r, [c]) else scanPlx i
  | [] => none

/-- Repeated unit of the nom function `pn_local`:
`PN_CHARS | '.' | ':' | PLX`. -/
def scanPnLocalRest (i : Str) : Option (Str × Str) :=
  match i with
  | c :: r =>
    if isPnChars c || c == '.' || c == ':' then some (r, [c]) else scanPlx i
  | [] => none

/-- The `many0` loop of `pn_local` (maximal munch; nom does not
backtrack, so unlike the W3C grammar a trailing `.` is kept, and the
final `opt(...)` of the source can never add anything after the
maximal run). -/
def scanPnLocalGo : Nat → Str → Str → Str × Str
  | 0, i, acc => (i, acc)
  | fuel + 1, i, acc =>
    match scanPnLocalRest i with
    | some (r, u) => scanPnLocalGo fuel r (acc ++ u)
    | none => (i, acc)

/-- Embeds the nom function `pn_local`
(src/metis/src/turtle/parse/terminals.rs lines 117-133). -/
def scanPnLocal (i : Str) : Option (Str × Str) :=
  match scanPnLocalFirst i with
  | none => none
  | some (r, m) =>
    let (rest, full) := scanPnLocalGo (r.length + 1) r m
    some (rest, full)

/-- Embeds the nom function `pname_ln`: `PNAME_NS PN_LOCAL`,
recognized as one slice. -/
def scanPnameLn (i : Str) : Option (Str × Str) :=
  match scanPnameNs i with
  | none => none
  | some (r1, m1) =>
    match scanPnLocal r1 with
    | none => none
    | some (r2, m2) => some (r2, m1 ++ m2)

/-- Embeds the nom function `blank_node_label`: `_:` then a
`PN_CHARS_U`-or-digit char, then a maximal `PN_CHARS`/`.` run (nom's
`many0`; the trailing `opt` can never fire). -/
def scanBnodeLabel : Str → Option (Str × Str)
  | '_' :: ':' :: c :: r =>
    if isPnCharsU c || isDigitC c then
      let run := r.takeWhile (fun d => isPnChars d || d == '.')
      some (r.drop run.length, '_' :: ':' :: c :: run)
    else none
  | _ => none

/-- Embeds the `ANON` terminal: `[` plain whitespace `]`. -/
def scanAnon : Str → Option (Str × Str)
  | '[' :: r =>
    let sp := r.takeWhile (fun c => c == ' ' || c == '\t' || c == '\n' || c == '\r')
    match r.drop sp.length with
    | ']' :: r2 => some (r2, '[' :: (sp ++ [']']))
    | _ => none
  | _ => none

/-- One unit of the `WS` terminal: a whitespace char or a
`#`-comment closed by a newline. -/
def scanWsUnit : Str → Option Str
  | [] => none
  | c :: r =>
    if c == ' ' || c == '\t' || c == '\n' || c == '\r' then some r
    else if c == '#' then
      let com := r.takeWhile (fun d => d ≠ '\n')
      match r.drop com.length with
      | '\n' :: r2 => some r2
      | _ => none
    else none

/-- Maximal run of `WS` units. -/
def wsMany0Go : Nat → Str → Str
  | 0, i => i
  | fuel + 1, i =>
    match scanWsUnit i with
    | some r => wsMany0Go fuel r
    | none => i

/-- Embeds `multispace0` (the `WS_MANY0` regex): always succeeds. -/
def multispace0 (i : Str) : Str := wsMany0Go (i.length + 1) i

/-- Embeds `multispace1` (the `WS_MANY1` regex): fails when no
whitespace unit matches. -/
def multispace1 (i : Str) : Option Str :=
  match scanWsUnit i with
  | some r => some (wsMany0Go (r.length + 1) r)
  | none => none

/-- Optional sign of the numeric terminals. -/
def scanSign : Str → Str × Str
  | [] => ([], [])
  | c :: r => if c == '+' || c == '-' then (r, [c]) else (c :: r, [])

/-- Embeds the `INTEGER` terminal: `[+-]? digit+`. -/
def scanInteger (i : Str) : Option (Str × Str) :=
  let (r, sg) := scanSign i
  let d := r.takeWhile isDigitC
  if d.isEmpty then none else some (r.drop d.length, sg ++ d)

/-- Embeds the `DECIMAL` terminal: `[+-]? digit* '.' digit+`. -/
def scanDecimal (i : Str) : Option (Str × Str) :=
  let (r, sg) := scanSign i
  let d1 := r.takeWhile isDigitC
  match r.drop d1.length with
  | '.' :: r2 =>
    let d2 := r2.takeWhile isDigitC
    if d2.isEmpty then none
    else some (r2.drop d2.length, sg ++ d1 ++ '.' :: d2)
  | _ => none

/-- Embeds the `EXPONENT` terminal: `[eE] [+-]? digit+`. -/
def scanExponent : Str → Option (Str × Str)
  | [] => none
  | c :: r =>
    if c == 'e' || c == 'E' then
      let (r2, sg) := scanSign r
      let d := r2.takeWhile isDigitC
      if d.isEmpty then none else some (r2.drop d.length, c :: (sg ++ d))
    else none

/-- Embeds the `DOUBLE` terminal:
`[+-]? (digit+ '.' digit* EXP | '.' digit+ EXP | digit+ EXP)`. -/
def scanDouble (i : Str) : Option (Str × Str) :=
  let (r, sg) := scanSign i
  let d1 := r.takeWhile isDigitC
  if d1.isEmpty then
    match r with
    | '.' :: r2 =>
      let d2 := r2.takeWhile isDigitC
      if d2.isEmpty then none
      else
        match scanExponent (r2.drop d2.length) with
        | some (r3, e) => some (r3, sg ++ '.' :: (d2 ++ e))
        | none => none
    | _ => none
  else
    match r.drop d1.length with
    | '.' :: r2 =>
      let d2 := r2.takeWhile isDigitC
      match scanExponent (r2.drop d2.length) with
      | some (r3, e) => some (r3, sg ++ d1 ++ '.' :: (d2 ++ e))
      | none => none
    | rr =>
      match scanExponent rr with
      | some (r3, e) => some (r3, sg ++ d1 ++ e)
      | none => none

/-- Embeds the `LANGTAG` terminal's `(-[alnum]+)*` loop. -/
def scanLangExtGo : Nat → Str → Str × Str
  | 0, i => (i, [])
  | fuel + 1, i =>
    match i with
    | '-' :: r =>
      let d := r.takeWhile isAlnumC
      if d.isEmpty then (i, [])
      else
        let (rest, more) := scanLangExtGo fuel (r.drop d.length)
        (rest, '-' :: (d ++ more))
    | _ => (i, [])

/-- Embeds the `LANGTAG` terminal: `@ alpha+ (-alnum+)*`. -/
def scanLangtag : Str → Option (Str × Str)
  | '@' :: r =>
    let a := r.takeWhile isAlphaC
    if a.isEmpty then none
    else
      let (rest, ext) := scanLangExtGo ((r.drop a.length).length + 1) (r.drop a.length)
      some (rest, '@' :: (a ++ ext))
  | _ => none

/-- Characters escapable by `ECHAR`. -/
def echarChars : Str := ['t', 'b', 'n', 'r', 'f', '\"', Char.ofNat 39, '\\']

/-- One unit of a short string literal quoted by `q`: an unescaped
char (anything but the quote, backslash, CR, LF), an `ECHAR`, or a
numeric escape. -/
def scanStringUnit (q : Char) : Str → Option (Str × Str)
  | [] => none
  | '\\' :: r =>
    match r with
    | 'u' :: a :: b :: c :: d :: rr =>
      if isHexC a && isHexC b && isHexC c && isHexC d then
        some (rr, ['\\', 'u', a, b, c, d])
      else none
    | 'U' :: a :: b :: c :: d :: e :: f :: g :: h :: rr =>
      if isHexC a && isHexC b && isHexC c && isHexC d
          && isHexC e && isHexC f && isHexC g && isHexC h then
        some (rr, ['\\', 'U', a, b, c, d, e, f, g, h])
      else
        match r with
        | c2 :: rr2 => if echarChars.contains c2 then some (rr2, ['\\', c2]) else none
        | [] => none
    | c2 :: rr2 => if echarChars.contains c2 then some (rr2, ['\\', c2]) else none
    | [] => none
  | c :: r =>
    if c == q || c == '\n' || c == '\r' then none else some (r, [c])

/-- Body loop of a short string literal quoted by `q`. -/
def scanStringGo (q : Char) : Nat → Str → Str → Option (Str × Str)
  | 0, _, _ => none
  | fuel + 1, i, acc =>
    match i with
    | c :: r =>
      if c == q then some (r, acc ++ [q])
      else
        match scanStringUnit q i with
        | some (r2, u) => scanStringGo q fuel r2 (acc ++ u)
        | none => none
    | [] => none

/-- Embeds the `STRING_LITERAL_QUOTE` / `STRING_LITERAL_SINGLE_QUOTE`
terminals, parametrized by the quote character. -/
def scanStringLit (q : Char) : Str → Option (Str × Str) :=
  fun i =>
    match i with
    | c :: r => if c == q then scanStringGo q (r.length + 1) r [q] else none
    | [] => none

/-- One body unit of a long string literal: an unescaped char
(anything but the quote and backslash), an `ECHAR`, or a numeric
escape. -/
def scanLongUnit (q : Char) : Str → Option (Str × Str)
  | [] => none
  | '\\' :: r => scanStringUnit q ('\\' :: r)
  | c :: r => if c == q then none else some (r, [c])

/-- Body loop of a long string literal: up to two quote chars may
precede each body unit; three quote chars close the literal. -/
def scanLongGo (q : Char) : Nat → Str → Str → Option (Str × Str)
  | 0, _, _ => none
  | fuel + 1, i, acc =>
    match i with
    | a :: b :: c :: r =>
      if a == q && b == q && c == q then some (r, acc ++ [q, q, q])
      else if a == q && b == q then
        match scanLongUnit q (c :: r) with
        | some (r2, u) => scanLongGo q fuel r2 (acc ++ [q, q] ++ u)
        | none => none
      else if a == q then
        match scanLongUnit q (b :: c :: r) with
        | some (r2, u) => scanLongGo q fuel r2 (acc ++ [q] ++ u)
        | none => none
      else
        match scanLongUnit q i with
        | some (r2, u) => scanLongGo q fuel r2 (acc ++ u)
        | none => none
    | _ => none

/-- Embeds the `STRING_LITERAL_LONG_QUOTE` /
`STRING_LITERAL_LONG_SINGLE_QUOTE` terminals. -/
def scanLongString (q : Char) : Str → Option (Str × Str)
  | a :: b :: c :: r =>
    if a == q && b == q && c == q then scanLongGo q (r.length + 1) r [q, q, q]
    else none
  | _ => none

/-- Embeds `tag`: match a literal token. -/
def tagP (t : Str) (i : Str) : Option Str :=
  if i.take t.length = t then some (i.drop t.length) else none

/-- Embeds `tag_no_case`: match a literal token case-insensitively. -/
def tagNoCase (t : Str) (i : Str) : Option Str :=
  if (i.take t.length).map Char.toLower = t.map Char.toLower
  then some (i.drop t.length) else none

/-- Embeds `unwrap_str` (src/parse.rs lines 90-93): remove a margin of
characters on both sides. -/
def unwrapStr (i : Str) (m : Nat) : Str :=
  (i.drop m).take (i.length - m - m)

/-! ## Grammar productions

Embeddings of the working Turtle productions of
src/metis/src/turtle/parse/production.rs.  Each production becomes a
function `Str → Context → Option (Str × α) × Context`: `none` is nom's
soft `Err::Error` (the only error kind this tree constructs), and the
context is returned in every case because mutations through the
`RefCell` survive a failing production.  The mutually recursive
productions take explicit fuel; every cycle of the grammar consumes
input, so the generous `stmtFuel` below never runs out on the inputs
of the theorems. -/

/-- Embeds `Format::is_valid_prefix`: empty, or the `PN_PREFIX` regex
matches at the start (`Regex::is_match` needs a match, not a full
match). -/
def isValidPfx (p : Str) : Bool := p.isEmpty || (scanPnPfx p).isSome

/-- Embeds `Prolog::add_prefix` (src/common/prolog.rs lines 111-120;
renamed): validate the prefix name, build the namespace (the external
`Namespace::new` constructor's own validation is elided — the scanner
has already matched `IRIREF`), resolve it against the current base,
and insert it replacing any previous binding. -/
def Prolog.addPfx (p : Prolog) (name ns : Str) : Except Unit Unit × Prolog :=
  if isValidPfx name then
    let ns := p.resolveStr ns
    (.ok (), { p with prefixes := insertNs p.prefixes name ns })
  else
    (.error (), p)

/-- Embeds `escape` (old tree lines 90-92): the escape resolution is a
documented TODO in the source and returns its input unchanged. -/
def escapeStr (i : Str) : Str := i

/-- Embeds `PoList` (old tree lines 26-49): a predicate with its
object list. -/
structure PoList where
  predicate : RTerm
  objects : List RTerm
deriving DecidableEq, Repr

/-- Embeds `PoList::into_iter`: pair the predicate with each object. -/
def PoList.intoIter (l : PoList) : List (RTerm × RTerm) :=
  l.objects.map (fun o => (l.predicate, o))

/-- Embeds `SpoList` (old tree lines 51-85): a subject with its
predicate-object lists. -/
structure SpoList where
  subject : RTerm
  po_lists : List PoList
deriving DecidableEq, Repr

/-- Embeds `SpoList::into_iter`: the flattened triples, subject and
predicate copied per pair. -/
def SpoList.intoIter (l : SpoList) : List Triple :=
  List.flatten (l.po_lists.map (fun pol =>
    pol.intoIter.map (fun po => Triple3.mk l.subject po.1 po.2)))

/-- Embeds production `[5] base ::= '@base' IRIREF '.'` /
`[5s] sparqlBase` (old tree lines 134-159): parse the directive, strip
the angle brackets and set the context's base (the old tree passes the
raw text, i.e. an IRI carrying no suffix). -/
def baseRule (i : Str) (ctx : Context) : Option (Str × Unit) × Context :=
  let alt1 : Option (Str × Str) :=
    match tagP "@base".data i with
    | some r1 =>
      let r2 := multispace0 r1
      match scanIriref r2 with
      | some (r3, m) =>
        let r4 := multispace0 r3
        match tagP ".".data r4 with
        | some r5 => some (r5, m)
        | none => none
      | none => none
    | none => none
  let res : Option (Str × Str) :=
    match alt1 with
    | some x => some x
    | none =>
      match tagNoCase "BASE".data i with
      | some r1 =>
        let r2 := multispace0 r1
        match scanIriref r2 with
        | some (r3, m) => some (r3, m)
        | none => none
      | none => none
  match res with
  | none => (none, ctx)
  | some (rest, m) =>
    match ctx.prolog.set_base ⟨unwrapStr m 1, none⟩ with
    | (.ok _, prolog2) => (some (rest, ()), { ctx with prolog := prolog2 })
    | (.error _, prolog2) => (none, { ctx with prolog := prolog2 })

/-- Embeds production `[4] prefixID ::= '@prefix' PNAME_NS IRIREF '.'`
/ `[6s] sparqlPrefix` (old tree lines 166-200): parse the directive,
cut the trailing `:` and the angle brackets, add the prefix to the
context. -/
def prefixIdRule (i : Str) (ctx : Context) : Option (Str × Unit) × Context :=
  let alt1 : Option (Str × (Str × Str)) :=
    match tagP "@prefix".data i with
    | some r1 =>
      match multispace1 r1 with
      | some r2 =>
        match scanPnameNs r2 with
        | some (r3, p) =>
          let r4 := multispace0 r3
          match scanIriref r4 with
          | some (r5, ns) =>
            let r6 := multispace0 r5
            match tagP ".".data r6 with
            | some r7 => some (r7, (p, ns))
            | none => none
          | none => none
        | none => none
      | none => none
    | none => none
  let res : Option (Str × (Str × Str)) :=
    match alt1 with
    | some x => some x
    | none =>
      match tagNoCase "PREFIX".data i with
      | some r1 =>
        match multispace1 r1 with
        | some r2 =>
          match scanPnameNs r2 with
          | some (r3, p) =>
            let r4 := multispace0 r3
            match scanIriref r4 with
            | some (r5, ns) => some (r5, (p, ns))
            | none => none
          | none => none
        | none => none
      | none => none
  match res with
  | none => (none, ctx)
  | some (rest, (p, ns)) =>
    match ctx.prolog.addPfx (p.take (p.length - 1)) (unwrapStr ns 1) with
    | (.ok _, prolog2) => (some (rest, ()), { ctx with prolog := prolog2 })
    | (.error _, prolog2) => (none, { ctx with prolog := prolog2 })

/-- Embeds production `[3] directive ::= prefixID | base` (old tree
lines 124-126). -/
def directiveRule (i : Str) (ctx : Context) : Option (Str × Unit) × Context :=
  match prefixIdRule i ctx with
  | (some res, ctx) => (some res, ctx)
  | (none, ctx) => baseRule i ctx

/-- Embeds production `[136s] PrefixedName ::= PNAME_LN | PNAME_NS`
(old tree lines 443-467): on a `PNAME_LN` match, split prefix and
local part on `:` (Rust's `split(':')` takes only the first two
pieces), look up the namespace — a miss is an error return, it does
not fall through to the `PNAME_NS` branch. -/
def prefixedName (i : Str) (ctx : Context) : Option (Str × RTerm) × Context :=
  match scanPnameLn i with
  | some (rest, parsed) =>
    let ns := parsed.takeWhile (fun c => c ≠ ':')
    let suffix := (parsed.drop (ns.length + 1)).takeWhile (fun c => c ≠ ':')
    match lookupNs ctx.prolog.prefixes ns with
    | some nsIri => (some (rest, .iri nsIri (some (escapeStr suffix))), ctx)
    | none => (none, ctx)
  | none =>
    match scanPnameNs i with
    | some (rest, s) =>
      match lookupNs ctx.prolog.prefixes (s.take (s.length - 1)) with
      | some nsIri => (some (rest, .iri nsIri none), ctx)
      | none => (none, ctx)
    | none => (none, ctx)

/-- Embeds production `[135s] iri ::= IRIREF | PrefixedName` (old tree
lines 428-439). -/
def iriRule (i : Str) (ctx : Context) : Option (Str × RTerm) × Context :=
  match scanIriref i with
  | some (rest, s) =>
    if s.length < 2 then (none, ctx)
    else (some (rest, ctx.new_iri (unwrapStr s 1)), ctx)
  | none => prefixedName i ctx

/-- Embeds production `[9] verb ::= predicate | 'a'` (old tree lines
257-262; `[11] predicate ::= iri`). -/
def verbRule (i : Str) (ctx : Context) : Option (Str × RTerm) × Context :=
  match iriRule i ctx with
  | (some res, ctx) => (some res, ctx)
  | (none, ctx) =>
    match tagP "a".data i with
    | some r => (some (r, rdfType), ctx)
    | none => (none, ctx)

/-- Embeds production `[137s] BlankNode ::= BLANK_NODE_LABEL | ANON`
(old tree lines 471-479). -/
def blankNodeRule (i : Str) (ctx : Context) : Option (Str × RTerm) × Context :=
  match scanBnodeLabel i with
  | some (rest, s) =>
    let (t, ctx) := ctx.new_labeled_bnode (s.drop 2)
    (some (rest, t), ctx)
  | none =>
    match scanAnon i with
    | some (rest, _) =>
      let (t, ctx) := ctx.new_anon_bnode
      (some (rest, t), ctx)
    | none => (none, ctx)

/-- Embeds production `[17] String` (old tree lines 408-424): the four
quote styles, unwrapped and escape-expanded. -/
def stringRule (i : Str) : Option (Str × Str) :=
  match scanLongString '\"' i with
  | some (r, s) => some (r, escapeStr (unwrapStr s 3))
  | none =>
  match scanStringLit '\"' i with
  | some (r, s) => some (r, escapeStr (unwrapStr s 1))
  | none =>
  match scanLongString (Char.ofNat 39) i with
  | some (r, s) => some (r, escapeStr (unwrapStr s 3))
  | none =>
  match scanStringLit (Char.ofNat 39) i with
  | some (r, s) => some (r, escapeStr (unwrapStr s 1))
  | none => none

/-- Embeds production `[128s] RDFLiteral ::= String (LANGTAG | '^^'
iri)?` (old tree lines 381-396): `^^`-datatype first; if that whole
branch fails, a language tag; otherwise the plain-string datatype. -/
def rdfLiteralRule (i : Str) (ctx : Context) : Option (Str × RTerm) × Context :=
  match stringRule i with
  | none => (none, ctx)
  | some (rest, str) =>
    let dtBranch : Option (Str × RTerm) × Context :=
      match tagP "^^".data rest with
      | some r1 =>
        match iriRule r1 ctx with
        | (some (r2, dt), c2) => (some (r2, .litDT str dt), c2)
        | (none, c2) => (none, c2)
      | none => (none, ctx)
    match dtBranch with
    | (some res, c2) => (some res, c2)
    | (none, c2) =>
      match scanLangtag rest with
      | some (r2, lang) => (some (r2, .litLang str (lang.drop 1)), c2)
      | none => (some (rest, .litDT str xsdString), c2)

/-- Embeds productions `[13] literal`, `[16] NumericLiteral` and
`[133s] BooleanLiteral` (old tree lines 302-308, 365-377, 400-404),
with the source's alternative order (`INTEGER` before `DECIMAL` before
`DOUBLE`). -/
def literalRule (i : Str) (ctx : Context) : Option (Str × RTerm) × Context :=
  match rdfLiteralRule i ctx with
  | (some res, ctx) => (some res, ctx)
  | (none, ctx) =>
    match scanInteger i with
    | some (r, t) => (some (r, .litDT t xsdInteger), ctx)
    | none =>
    match scanDecimal i with
    | some (r, t) => (some (r, .litDT t xsdDecimal), ctx)
    | none =>
    match scanDouble i with
    | some (r, t) => (some (r, .litDT t xsdDouble), ctx)
    | none =>
    match tagP "true".data i with
    | some r => (some (r, .litDT "true".data xsdBoolean), ctx)
    | none =>
    match tagP "false".data i with
    | some r => (some (r, .litDT "false".data xsdBoolean), ctx)
    | none => (none, ctx)

/-- The cell loop of `collection` (old tree lines 342-357): for each
element mint the next cell (or `rdf:nil` for the last), then push the
`rdf:first` and `rdf:rest` triples of the current cell. -/
def collectionCellsGo : List RTerm → RTerm → Context → Context
  | [], _, ctx => ctx
  | [o], cur, ctx =>
    let ctx := ctx.push_triple ⟨cur, rdfFirst, o⟩
    ctx.push_triple ⟨cur, rdfRest, rdfNil⟩
  | o :: rest, cur, ctx =>
    let (next, ctx) := ctx.new_anon_bnode
    let ctx := ctx.push_triple ⟨cur, rdfFirst, o⟩
    let ctx := ctx.push_triple ⟨cur, rdfRest, next⟩
    collectionCellsGo rest next ctx

mutual

/-- Embeds production `[10] subject ::= iri | BlankNode | collection`
(old tree lines 266-272). -/
def subjectRule : Nat → Str → Context → Option (Str × RTerm) × Context
  | 0, _, ctx => (none, ctx)
  | fuel + 1, i, ctx =>
    match iriRule i ctx with
    | (some res, ctx) => (some res, ctx)
    | (none, ctx) =>
      match blankNodeRule i ctx with
      | (some res, ctx) => (some res, ctx)
      | (none, ctx) => collectionRule fuel i ctx

/-- Embeds production `[12] object ::= iri | BlankNode | collection |
blankNodePropertyList | literal` (old tree lines 282-298): the
blank-node-property-list alternative mints an anonymous subject and
pushes its triples immediately. -/
def objectRule : Nat → Str → Context → Option (Str × RTerm) × Context
  | 0, _, ctx => (none, ctx)
  | fuel + 1, i, ctx =>
    match iriRule i ctx with
    | (some res, ctx) => (some res, ctx)
    | (none, ctx) =>
    match blankNodeRule i ctx with
    | (some res, ctx) => (some res, ctx)
    | (none, ctx) =>
    match collectionRule fuel i ctx with
    | (some res, ctx) => (some res, ctx)
    | (none, ctx) =>
    match bnplRule fuel i ctx with
    | (some (rest, pol), ctx) =>
      let (bn, ctx) := ctx.new_anon_bnode
      let ctx := ctx.push_triples (SpoList.mk bn pol).intoIter
      (some (rest, bn), ctx)
    | (none, ctx) => literalRule i ctx

/-- Embeds production `[15] collection ::= '(' object* ')'` (old tree
lines 332-361): empty yields `rdf:nil` with no side triples; otherwise
the first cell is minted, the cell triples are pushed left to right,
and the first cell is the value. -/
def collectionRule : Nat → Str → Context → Option (Str × RTerm) × Context
  | 0, _, ctx => (none, ctx)
  | fuel + 1, i, ctx =>
    match tagP "(".data i with
    | none => (none, ctx)
    | some r1 =>
      let r2 := multispace0 r1
      match sepListObjects fuel r2 ctx with
      | (none, ctx) => (none, ctx)
      | (some (r3, contents), ctx) =>
        let r4 := multispace0 r3
        match tagP ")".data r4 with
        | none => (none, ctx)
        | some r5 =>
          if contents.isEmpty then (some (r5, rdfNil), ctx)
          else
            let (first, ctx) := ctx.new_anon_bnode
            let ctx := collectionCellsGo contents first ctx
            (some (r5, first), ctx)

/-- nom's `separated_list(multispace1, object)` of `collection`:
start of the list. -/
def sepListObjects : Nat → Str → Context → Option (Str × List RTerm) × Context
  | 0, _, ctx => (none, ctx)
  | fuel + 1, i, ctx =>
    match objectRule fuel i ctx with
    | (none, ctx) => (some (i, []), ctx)
    | (some (i1, o), ctx) =>
      if i1 = i then (none, ctx)
      else sepListObjectsLoop fuel i1 [o] ctx

/-- nom's `separated_list(multispace1, object)`: the loop, with nom's
zero-consumption guards. -/
def sepListObjectsLoop : Nat → Str → List RTerm → Context → Option (Str × List RTerm) × Context
  | 0, _, _, ctx => (none, ctx)
  | fuel + 1, i, acc, ctx =>
    match multispace1 i with
    | none => (some (i, acc), ctx)
    | some i1 =>
      if i1 = i then (none, ctx)
      else
        match objectRule fuel i1 ctx with
        | (none, ctx) => (some (i, acc), ctx)
        | (some (i2, o), ctx) =>
          if i2 = i then (none, ctx)
          else sepListObjectsLoop fuel i2 (acc ++ [o]) ctx

/-- Embeds production `[14] blankNodePropertyList ::= '['
predicateObjectList ']'` (old tree lines 312-323). -/
def bnplRule : Nat → Str → Context → Option (Str × List PoList) × Context
  | 0, _, ctx => (none, ctx)
  | fuel + 1, i, ctx =>
    match tagP "[".data i with
    | none => (none, ctx)
    | some r1 =>
      let r2 := multispace0 r1
      match predicateObjectListRule fuel r2 ctx with
      | (none, ctx) => (none, ctx)
      | (some (r3, contents), ctx) =>
        let r4 := multispace0 r3
        match tagP "]".data r4 with
        | none => (none, ctx)
        | some r5 => (some (r5, contents), ctx)

/-- One element of `predicateObjectList`: `verb` whitespace
`objectList`, combined into a `PoList`. -/
def polElem : Nat → Str → Context → Option (Str × PoList) × Context
  | 0, _, ctx => (none, ctx)
  | fuel + 1, i, ctx =>
    match verbRule i ctx with
    | (none, ctx) => (none, ctx)
    | (some (r1, v), ctx) =>
      match multispace1 r1 with
      | none => (none, ctx)
      | some r2 =>
        match objectListRule fuel r2 ctx with
        | (none, ctx) => (none, ctx)
        | (some (r3, objs), ctx) => (some (r3, PoList.mk v objs), ctx)

/-- Embeds production `[7] predicateObjectList ::= verb objectList
(';' (verb objectList)?)*` (old tree lines 234-245):
nom's `separated_list` over `';'`, which succeeds with the empty list
when the first element does not match. -/
def predicateObjectListRule : Nat → Str → Context → Option (Str × List PoList) × Context
  | 0, _, ctx => (none, ctx)
  | fuel + 1, i, ctx =>
    match polElem fuel i ctx with
    | (none, ctx) => (some (i, []), ctx)
    | (some (i1, e), ctx) =>
      if i1 = i then (none, ctx)
      else polListLoop fuel i1 [e] ctx

/-- The `separated_list` loop of `predicateObjectList`. -/
def polListLoop : Nat → Str → List PoList → Context → Option (Str × List PoList) × Context
  | 0, _, _, ctx => (none, ctx)
  | fuel + 1, i, acc, ctx =>
    match
      (match tagP ";".data (multispace0 i) with
        | none => none
        | some r2 => some (multispace0 r2) : Option Str)
    with
    | none => (some (i, acc), ctx)
    | some i1 =>
      if i1 = i then (none, ctx)
      else
        match polElem fuel i1 ctx with
        | (none, ctx) => (some (i, acc), ctx)
        | (some (i2, e), ctx) =>
          if i2 = i then (none, ctx)
          else polListLoop fuel i2 (acc ++ [e]) ctx

/-- Embeds production `[8] objectList ::= object (',' object)*` (old
tree lines 249-253): nom's `separated_list` over `','`, which
succeeds with the empty list when the first `object` does not match. -/
def objectListRule : Nat → Str → Context → Option (Str × List RTerm) × Context
  | 0, _, ctx => (none, ctx)
  | fuel + 1, i, ctx =>
    match objectRule fuel i ctx with
    | (none, ctx) => (some (i, []), ctx)
    | (some (i1, o), ctx) =>
      if i1 = i then (none, ctx)
      else objectListLoop fuel i1 [o] ctx

/-- The `separated_list` loop of `objectList`. -/
def objectListLoop : Nat → Str → List RTerm → Context → Option (Str × List RTerm) × Context
  | 0, _, _, ctx => (none, ctx)
  | fuel + 1, i, acc, ctx =>
    match
      (match tagP ",".data (multispace0 i) with
        | none => none
        | some r2 => some (multispace0 r2) : Option Str)
    with
    | none => (some (i, acc), ctx)
    | some i1 =>
      if i1 = i then (none, ctx)
      else
        match objectRule fuel i1 ctx with
        | (none, ctx) => (some (i, acc), ctx)
        | (some (i2, o), ctx) =>
          if i2 = i then (none, ctx)
          else objectListLoop fuel i2 (acc ++ [o]) ctx

/-- Embeds production `[6] triples ::= subject predicateObjectList |
blankNodePropertyList predicateObjectList?` (old tree lines 204-230). -/
def triplesRule : Nat → Str → Context → Option (Str × SpoList) × Context
  | 0, _, ctx => (none, ctx)
  | fuel + 1, i, ctx =>
    let branch1 : Option (Str × SpoList) × Context :=
      match subjectRule fuel i ctx with
      | (none, ctx) => (none, ctx)
      | (some (r1, s), ctx) =>
        match multispace1 r1 with
        | none => (none, ctx)
        | some r2 =>
          match predicateObjectListRule fuel r2 ctx with
          | (none, ctx) => (none, ctx)
          | (some (r3, po), ctx) => (some (r3, SpoList.mk s po), ctx)
    match branch1 with
    | (some res, ctx) => (some res, ctx)
    | (none, ctx) =>
      match bnplRule fuel i ctx with
      | (none, ctx) => (none, ctx)
      | (some (r1, bnPo), ctx) =>
        match predicateObjectListRule fuel r1 ctx with
        | (some (r2, outer), ctx) =>
          let (bn, ctx) := ctx.new_anon_bnode
          (some (r2, SpoList.mk bn (bnPo ++ outer)), ctx)
        | (none, ctx) =>
          let (bn, ctx) := ctx.new_anon_bnode
          (some (r1, SpoList.mk bn bnPo), ctx)

/-- Embeds production `[2] statement ::= directive | triples '.'` (old
tree lines 107-120): a directive pushes nothing; a triples statement
pushes its flattened triples after the closing dot. -/
def statementRule : Nat → Str → Context → Option (Str × Unit) × Context
  | 0, _, ctx => (none, ctx)
  | fuel + 1, i, ctx =>
    match directiveRule i ctx with
    | (some (rest, _), ctx) => (some (rest, ()), ctx)
    | (none, ctx) =>
      match triplesRule fuel i ctx with
      | (none, ctx) => (none, ctx)
      | (some (r1, spo), ctx) =>
        let r2 := multispace0 r1
        match tagP ".".data r2 with
        | none => (none, ctx)
        | some r3 => (some (r3, ()), ctx.push_triples spo.intoIter)

end

/-! ## The statement iterator -/

/-- Embeds the `Parser` struct (src/parse/turtle.rs lines 40-49): the
context (behind a `RefCell` in the source), the current position, and
the finished/failed flag. -/
structure Parser where
  ctx : Context
  current : Str
  end_or_failed : Bool
deriving DecidableEq, Repr

/-- Embeds `Parser::new` (src/parse/turtle.rs lines 53-61): default
context and leading whitespace trimmed. -/
def Parser.new (doc : Str) : Parser :=
  ⟨Context.init, multispace0 doc, false⟩

/-- Fuel for one top-level `statement` call.  Mutually recursive
productions either consume input before recursing or move down a
finite production chain, so a small multiple of the input length
bounds the recursion depth. -/
def stmtFuel (i : Str) : Nat := 8 * i.length + 16

/-- Embeds `<Parser as Iterator>::next` (src/parse/turtle.rs lines
88-115): finished/failed short-circuit, the pending-queue pop, the
end-of-input check, one `statement` parse, and the tail self-call
(fuelled; each successful statement consumes input, so
`current.length + 1` rounds suffice). -/
def Parser.nextGo : Nat → Parser → Option (Except Unit Triple) × Parser
  | 0, s => (none, s)
  | fuel + 1, s =>
    if s.end_or_failed then (none, s)
    else
      match s.ctx.pop_triple with
      | (some t, ctx) => (some (.ok t), { s with ctx := ctx })
      | (none, ctx) =>
        if s.current.isEmpty then (none, { s with ctx := ctx, end_or_failed := true })
        else
          match statementRule (stmtFuel s.current) s.current ctx with
          | (none, ctx) => (some (.error ()), { s with ctx := ctx, end_or_failed := true })
          | (some (rest, _), ctx) =>
            Parser.nextGo fuel { s with ctx := ctx, current := multispace0 rest }

/-- `Parser::next` with its fuel instantiated. -/
def Parser.next (s : Parser) : Option (Except Unit Triple) × Parser :=
  Parser.nextGo (s.current.length + 1) s

/-- The first `n` yields of the iterator. -/
def Parser.run : Nat → Parser → List (Option (Except Unit Triple))
  | 0, _ => []
  | n + 1, s =>
    let (o, s2) := s.next
    o :: Parser.run n s2

/-- Decidable equality of yields, for evaluating concrete runs. -/
instance : DecidableEq (Except Unit Triple) := fun a b =>
  match a, b with
  | .ok x, .ok y =>
    if h : x = y then isTrue (by rw [h]) else isFalse (by intro hc; cases hc; exact h rfl)
  | .error x, .error y =>
    if h : x = y then isTrue (by rw [h]) else isFalse (by intro hc; cases hc; exact h rfl)
  | .ok _, .error _ => isFalse (by intro hc; cases hc)
  | .error _, .ok _ => isFalse (by intro hc; cases hc)

/-! ## C1: collection desugaring -/

/-- The C1 document: `:s :p (1 2 3) .` with a suitable prefix
declaration. -/
def c1Doc : Str := "@prefix : <http://ex.org/> . :s :p (1 2 3) .".data

/-- The namespace the empty prefix of `c1Doc` is bound to. -/
def exNs : Str := "http://ex.org/".data

/-- The `n`-th anonymous collection cell, labelled by the parser's
blank-node counter. -/
def cell (n : Nat) : RTerm := .bnode ("anon".data ++ Nat.toDigits 10 n)

/-- An `xsd:integer` literal. -/
def intLit (s : Str) : RTerm := .litDT s xsdInteger

/-- The containing triple `:s :p _:c0` of the C1 document. -/
def c1MainTriple : Triple :=
  ⟨.iri exNs (some "s".data), .iri exNs (some "p".data), cell 0⟩

/-- The six cell triples of the collection `(1 2 3)`, left to right,
first cell first. -/
def c1CellTriples : List Triple :=
  [⟨cell 0, rdfFirst, intLit "1".data⟩, ⟨cell 0, rdfRest, cell 1⟩,
    ⟨cell 1, rdfFirst, intLit "2".data⟩, ⟨cell 1, rdfRest, cell 2⟩,
    ⟨cell 2, rdfFirst, intLit "3".data⟩, ⟨cell 2, rdfRest, rdfNil⟩]

/-- Successful yields followed by end-of-sequence. -/
def yieldsOf (ts : List Triple) : List (Option (Except Unit Triple)) :=
  ts.map (fun t => some (.ok t)) ++ [none]

/-- Counterexample to C1 as stated: the statement iterator does yield
exactly the seven expected triples for `:s :p (1 2 3) .`, but not in
the claimed order — the containing triple `:s :p _:c0` comes last, not
first, because the collection's side triples are enqueued while the
statement is still being parsed and the queue is FIFO. -/
theorem collection_claimed_order_cex :
    Parser.run 8 (Parser.new c1Doc) = yieldsOf (c1CellTriples ++ [c1MainTriple])
    ∧ Parser.run 8 (Parser.new c1Doc) ≠ yieldsOf (c1MainTriple :: c1CellTriples) := by
  constructor
  · decide
  · decide

/-- C1 (amended): for the document `:s :p (1 2 3) .` the statement
iterator yields exactly the seven desugared triples with the anonymous
cell labels (`anon0`, `anon1`, `anon2`) strictly increasing and unique
within the document, the cell triples emitted left to right, first
cell first, and the containing triple — whose object is the first
cell, the collection expression's value — yielded last, after all cell
triples; afterwards the iterator is exhausted. -/
theorem collection_desugaring :
    Parser.run 8 (Parser.new c1Doc) = yieldsOf (c1CellTriples ++ [c1MainTriple]) := by
  decide

/-! ## C2: the iterator latches after end or failure -/

/-- Once `nextGo` reports a parse error, the resulting state carries
the `end_or_failed` flag. -/
theorem nextGo_error_flag (fuel : Nat) :
    ∀ s : Parser,
      (Parser.nextGo fuel s).1 = some (.error ())
      → (Parser.nextGo fuel s).2.end_or_failed = true := by
  induction fuel with
  | zero =>
    intro s h
    simp [Parser.nextGo] at h
  | succ n ih =>
    intro s h
    by_cases hf : s.end_or_failed
    · simp [Parser.nextGo, hf] at h
    · rw [Parser.nextGo] at h ⊢
      simp only [hf, Bool.false_eq_true, if_false] at h ⊢
      cases hst : s.ctx.triple_stack with
      | cons t rest =>
        simp [Context.pop_triple, hst] at h
      | nil =>
        simp only [Context.pop_triple, hst] at h ⊢
        by_cases hc : s.current.isEmpty
        · simp [hc] at h
        · simp only [hc, Bool.false_eq_true, if_false] at h ⊢
          cases hstmt : statementRule (stmtFuel s.current) s.current s.ctx with
          | mk o ctx2 =>
            cases o with
            | none => simp [hstmt]
            | some v =>
              simp only [hstmt] at h ⊢
              exact ih _ h

/-- C2: once the finished/failed flag is set, `next()` yields
end-of-sequence and leaves the state unchanged (so every subsequent
call yields end-of-sequence as well), and whenever `next()` reports a
parse error the resulting state has the flag set — hence no triple is
ever produced after a reported parse failure. -/
theorem iterator_latches :
    ∀ s : Parser,
      (s.end_or_failed = true → Parser.next s = (none, s))
      ∧ ((Parser.next s).1 = some (.error ())
          → (Parser.next s).2.end_or_failed = true) := by
  intro s
  constructor
  · intro h
    simp [Parser.next, Parser.nextGo, h]
  · intro h
    exact nextGo_error_flag _ s h

/-- Witness for C2: a concrete flagged state yields end-of-sequence
unchanged, and the concrete failing run of `c3Doc` flags the state. -/
theorem iterator_latches_witness :
    Parser.next ⟨Context.init, "x".data, true⟩ = (none, ⟨Context.init, "x".data, true⟩) :=
  (iterator_latches ⟨Context.init, "x".data, true⟩).1 rfl

/-! ## C3: the pending-triple queue -/

/-- The C3 counterexample document: the collection `(1)` pushes its
two cell triples into the queue before the missing statement dot makes
the whole statement fail. -/
def c3Doc : Str := "<http://a> <http://b> (1) x".data

/-- Counterexample to C3 as stated: after the failing parse of `c3Doc`
the parser state has a non-empty pending-triple queue, yet `next()`
yields end-of-sequence without popping, because the finished/failed
flag is checked before the queue. -/
theorem queue_pop_claim_cex :
    (Parser.next (Parser.new c3Doc)).1 = some (.error ())
    ∧ (Parser.next (Parser.new c3Doc)).2.ctx.triple_stack ≠ []
    ∧ (Parser.next (Parser.next (Parser.new c3Doc)).2).1 = none := by
  refine ⟨?_, ?_, ?_⟩
  · decide
  · decide
  · decide

/-- C3 (amended): for every parser state whose finished/failed flag is
unset and whose pending-triple queue is non-empty, `next()` pops and
returns exactly the front queued triple (FIFO push order) and changes
nothing but the queue — in particular it does not parse a new
statement, so all side triples pushed by nested productions of one
statement are returned, in push order, before any triple of the next
top-level statement. -/
theorem queue_pop_fifo :
    ∀ (s : Parser) (t : Triple) (rest : List Triple),
      s.end_or_failed = false → s.ctx.triple_stack = t :: rest →
      Parser.next s
        = (some (.ok t), { s with ctx := { s.ctx with triple_stack := rest } }) := by
  intro s t rest hf hst
  simp [Parser.next, Parser.nextGo, hf, Context.pop_triple, hst]

/-- Witness for C3 (amended) at a concrete state with a queued
triple. -/
theorem queue_pop_fifo_witness :
    Parser.next ⟨⟨Prolog.empty, 5, [c1MainTriple]⟩, "x".data, false⟩
      = (some (.ok c1MainTriple), ⟨⟨Prolog.empty, 5, []⟩, "x".data, false⟩) :=
  queue_pop_fifo ⟨⟨Prolog.empty, 5, [c1MainTriple]⟩, "x".data, false⟩ c1MainTriple [] rfl rfl

/-! ## C7: blank-node constructors -/

/-- Counterexample to C7 as stated: creating a labeled blank node does
not leave the blank-node counter unchanged — `new_labeled_bnode`
increments it exactly like `new_anon_bnode` does. -/
theorem labeled_bnode_counter_cex :
    (Context.init.new_labeled_bnode "x".data).2.bnode_cnt ≠ Context.init.bnode_cnt := by
  decide

/-- C7 (amended): `new_labeled_bnode` wraps the scanner-given label
(without consulting the counter for the label) and increments the
blank-node counter; `new_anon_bnode` formats its label from the
current counter value and then increments the counter; neither
operation modifies any other field of the parse context. -/
theorem bnode_constructors :
    ∀ (ctx : Context) (label : Str),
      ctx.new_labeled_bnode label
        = (.bnode label, { ctx with bnode_cnt := ctx.bnode_cnt + 1 })
      ∧ ctx.new_anon_bnode
        = (.bnode ("anon".data ++ Nat.toDigits 10 ctx.bnode_cnt),
            { ctx with bnode_cnt := ctx.bnode_cnt + 1 }) :=
  fun _ _ => ⟨rfl, rfl⟩

/-! ## C8: empty object / predicate-object lists -/

/-- C8: at a position where no object (and no verb) matches, the
`objectList` and `predicateObjectList` productions succeed with an
empty list instead of failing — nom's `separated_list` permits zero
elements, although the grammar rules `[7]`/`[8]` cited in the
productions' own doc comments require at least one.  Consequently the
statement `<http://a> .` parses successfully and pushes no triple. -/
theorem empty_list_success :
    objectListRule (stmtFuel ".".data) ".".data Context.init
        = (some (".".data, []), Context.init)
    ∧ predicateObjectListRule (stmtFuel ".".data) ".".data Context.init
        = (some (".".data, []), Context.init)
    ∧ statementRule (stmtFuel "<http://a> .".data) "<http://a> .".data Context.init
        = (some ([], ()), Context.init) := by
  refine ⟨?_, ?_, ?_⟩
  · decide
  · decide
  · decide

/-! ## C6: the prefixed-name production of src/parse/turtle/production.rs

This tree splits each production into a pure nom parser and a
`Parser` method returning `PResult`, where content-validation failures
are promoted to non-retryable `nom::Err::Failure` values.  The
embedded methods read the context but do not mutate it, so they take
it by value and return only the parse result. -/

/-- Embeds `parse::Error` (src/parse/error.rs lines 12-25), restricted
to the variants the embedded productions produce (`InvalidPrefix` is
renamed; the `ErrorKind` payload of `Kind` is elided). -/
inductive PError where
  | invalidPfx (txt : Str)
  | kindErr
  | noMatch
deriving DecidableEq, Repr

/-- Embeds `PosError` (src/parse/error.rs lines 33-47): the remaining
input at the error position together with the error. -/
structure PosError where
  pos : Str
  err : PError
deriving DecidableEq, Repr

/-- Embeds `nom::Err`: a recoverable `Error` (`soft`) versus a
non-retryable `Failure` (`fail`). -/
inductive NErr where
  | soft (e : PosError)
  | fail (e : PosError)
deriving DecidableEq, Repr

/-- Embeds `PResult<'a, O>` (src/parse/error.rs line 78). -/
abbrev PResult (α : Type) := Except NErr (Str × α)

/-- Embeds `pname_ln_split` (src/parse/turtle/production.rs lines
576-580): `pname_ln`, then Rust's `split(':')` taking the first piece
and the optional second piece. -/
def pnameLnSplit (i : Str) : Option (Str × (Str × Option Str)) :=
  match scanPnameLn i with
  | none => none
  | some (rest, full) =>
    let p1 := full.takeWhile (fun c => c ≠ ':')
    if p1.length = full.length then some (rest, (p1, none))
    else
      some (rest, (p1, some ((full.drop (p1.length + 1)).takeWhile (fun c => c ≠ ':'))))

/-- Embeds `pname_ns` (src/parse/turtle/production.rs lines 583-585):
the `PNAME_NS` terminal without its trailing colon. -/
def pnameNsNoColon (i : Str) : Option (Str × Str) :=
  match scanPnameNs i with
  | none => none
  | some (rest, m) => some (rest, m.take (m.length - 1))

/-- The first step of `Parser::prefixed_name`:
`alt((pname_ln_split, map(pname_ns, |s| (s, None))))`. -/
def pnamePart (i : Str) : Option (Str × (Str × Option Str)) :=
  match pnameLnSplit i with
  | some r => some r
  | none =>
    match pnameNsNoColon i with
    | some (rest, s) => some (rest, (s, none))
    | none => none

/-- Embeds `Parser::prefixed_name` (src/parse/turtle/production.rs
lines 436-451): parse the prefixed name, look up the namespace prefix;
a miss is a hard `Failure` carrying `Error::InvalidPrefix` with the
offending prefix text at the original position; on a hit the namespace
and suffix form the IRI (`Namespace::get_iri`, an external term
constructor whose validation is elided). -/
def Parser.prefixedNameNew (ctx : Context) (i : Str) : PResult SIri :=
  match pnamePart i with
  | none => .error (.soft ⟨i, .kindErr⟩)
  | some (rest, (ns, suffix)) =>
    match lookupNs ctx.prolog.prefixes ns with
    | none => .error (.fail ⟨i, .invalidPfx ns⟩)
    | some nsIri =>
      match suffix with
      | some sfx => .ok (rest, ⟨nsIri, some sfx⟩)
      | none => .ok (rest, ⟨nsIri, none⟩)

/-- Embeds `Parser::iriref` (src/parse/turtle/production.rs lines
429-432, with the helper `iriref` of lines 565-573): the `IRIREF`
terminal stripped of its brackets, resolved by the context. -/
def Parser.irirefNew (ctx : Context) (i : Str) : PResult SIri :=
  match scanIriref i with
  | none => .error (.soft ⟨i, .kindErr⟩)
  | some (rest, m) =>
    if m.length < 2 then .error (.soft ⟨i, .kindErr⟩)
    else .ok (rest, ctx.prolog.resolve ⟨unwrapStr m 1, none⟩)

/-- Embeds `Parser::alt` (src/parse/turtle/production.rs lines
467-479): try the alternatives in order; a soft `Error` moves on to
the next alternative, anything else — success or hard `Failure` — is
returned immediately; if every alternative soft-fails the result is
`NoMatch` at the original input. -/
def Parser.altRun {α : Type} (ctx : Context) (i : Str) :
    List (Context → Str → PResult α) → PResult α
  | [] => .error (.soft ⟨i, .noMatch⟩)
  | f :: rest =>
    match f ctx i with
    | .error (.soft _) => Parser.altRun ctx i rest
    | res => res

/-- Embeds `Parser::iri` (src/parse/turtle/production.rs lines
423-425): `alt([iriref, prefixed_name])`. -/
def Parser.iriNew (ctx : Context) (i : Str) : PResult SIri :=
  Parser.altRun ctx i [Parser.irirefNew, Parser.prefixedNameNew]

/-- An input accepted by `scanPnameNs` starts with a `PN_CHARS_BASE`
character or a colon. -/
theorem scanPnameNs_head (i : Str) (h : (scanPnameNs i).isSome) :
    ∃ c r, i = c :: r ∧ (isPnCharsBase c = true ∨ c = ':') := by
  cases i with
  | nil => simp [scanPnameNs, scanPnPfx] at h
  | cons c r =>
    by_cases hb : isPnCharsBase c
    · exact ⟨c, r, rfl, .inl hb⟩
    · by_cases hc : c = ':'
      · exact ⟨c, r, rfl, .inr hc⟩
      · exfalso
        simp [scanPnameNs, scanPnPfx, hb, hc] at h

/-- An input accepted by `pnamePart` does not start with `<`, so the
`IRIREF` scanner rejects it. -/
theorem pnamePart_iriref_none (i : Str) (x : Str × (Str × Option Str))
    (h : pnamePart i = some x) : scanIriref i = none := by
  have hns : (scanPnameNs i).isSome := by
    cases hne : scanPnameNs i with
    | some v => simp
    | none =>
      exfalso
      simp [pnamePart, pnameLnSplit, scanPnameLn, pnameNsNoColon, hne] at h
  obtain ⟨c, r, hi, hcc⟩ := scanPnameNs_head i hns
  subst hi
  have hlt : ¬(c = '<') := by
    intro hce
    subst hce
    cases hcc with
    | inl hb => simp [isPnCharsBase, isAlphaC, inRange] at hb
    | inr hcol => exact absurd hcol (by decide)
  simp [scanIriref, hlt]

/-- C6: a prefixed name whose prefix has no entry in the prefix table
at the point of use is a hard parse failure carrying the unresolved
prefix text (`Error::InvalidPrefix`); `Parser::alt` does not retry a
hard failure with any further grammar alternative (here shown for the
`iri` production and for arbitrary additional alternatives), and no
term is produced. -/
theorem unknown_pfx_hard_failure :
    ∀ (ctx : Context) (i rest ns : Str) (sfx : Option Str),
      pnamePart i = some (rest, (ns, sfx))
      → lookupNs ctx.prolog.prefixes ns = none
      → Parser.prefixedNameNew ctx i = .error (.fail ⟨i, .invalidPfx ns⟩)
        ∧ Parser.iriNew ctx i = .error (.fail ⟨i, .invalidPfx ns⟩)
        ∧ ∀ more : List (Context → Str → PResult SIri),
            Parser.altRun ctx i ([Parser.irirefNew, Parser.prefixedNameNew] ++ more)
              = .error (.fail ⟨i, .invalidPfx ns⟩) := by
  intro ctx i rest ns sfx hp hl
  have hpn : Parser.prefixedNameNew ctx i = .error (.fail ⟨i, .invalidPfx ns⟩) := by
    cases sfx with
    | none => simp [Parser.prefixedNameNew, hp, hl]
    | some s => simp [Parser.prefixedNameNew, hp, hl]
  have hir : Parser.irirefNew ctx i = .error (.soft ⟨i, .kindErr⟩) := by
    simp [Parser.irirefNew, pnamePart_iriref_none i _ hp]
  refine ⟨hpn, ?_, ?_⟩
  · simp [Parser.iriNew, Parser.altRun, hir, hpn]
  · intro more
    simp [Parser.altRun, hir, hpn]

/-- Witness for C6: `unknown:term` with an empty prefix table. -/
theorem unknown_pfx_hard_failure_witness :
    Parser.prefixedNameNew Context.init "unknown:term".data
      = .error (.fail ⟨"unknown:term".data, .invalidPfx "unknown".data⟩) :=
  (unknown_pfx_hard_failure Context.init "unknown:term".data [] "unknown".data
    (some "term".data) (by decide) rfl).1

/-! ## C9 and C10: the streaming serializer

Embeds src/metis/src/turtle/serialize/_stream.rs.  The byte sink is an
append-only text buffer; term serialization (the external
`Serializable` capability) and the configuration's spacing and
indentation are parameters.  I/O errors of the sink are not modelled
(the buffer cannot fail). -/

/-- The serializer configuration (`Config`, src/serialize/config.rs)
as the serializer reads it, plus the external term-serialization
capability. -/
structure SerConfig (τ : Type) where
  prefixes : List (Str × Str)
  base : Option Str
  indent : Str
  space : Str
  ser : τ → Str

/-- Embeds `Turtle::write_preamble` (src/turtle.rs lines 25-52): one
`@prefix NAME: <NAMESPACE> .` line per table entry, the `@base` line
if set, then a blank line if anything was written. -/
def writePreamble {τ : Type} (cfg : SerConfig τ) : Str :=
  let pfxLines := List.flatten (cfg.prefixes.map (fun pn =>
    "@prefix ".data ++ pn.1 ++ ": <".data ++ pn.2 ++ "> .\n".data))
  let baseLine :=
    match cfg.base with
    | some b => "@base <".data ++ b ++ "> .\n".data
    | none => []
  let out := pfxLines ++ baseLine
  if out.isEmpty then [] else out ++ "\n".data

/-- Embeds `Serializer` (src/turtle/serialize/_stream.rs lines 14-23):
target, configuration and indentation level. -/
structure Serializer (τ : Type) where
  target : Str
  config : SerConfig τ
  indent_level : Nat

/-- Embeds `Serializer::new` (lines 34-43): the preamble is written
immediately. -/
def Serializer.new {τ : Type} (cfg : SerConfig τ) : Serializer τ :=
  ⟨writePreamble cfg, cfg, 0⟩

/-- Embeds `Serializer::indent` (lines 85-91): write the configured
indentation once per level. -/
def Serializer.writeIndent {τ : Type} (s : Serializer τ) : Serializer τ :=
  { s with target := s.target ++ List.flatten (List.replicate s.indent_level s.config.indent) }

/-- Embeds `Serializer::write_spo` (lines 93-102): subject, spacing,
predicate, spacing, object; then one more indentation level. -/
def Serializer.write_spo {τ : Type} (s : Serializer τ) (t : Triple3 τ) : Serializer τ :=
  { s with
    target := s.target ++ s.config.ser t.s ++ s.config.space
      ++ s.config.ser t.p ++ s.config.space ++ s.config.ser t.o,
    indent_level := s.indent_level + 1 }

/-- Embeds `Serializer::write_po` (lines 104-113): the predicate
separator `" ;"` with a newline, the indentation, then predicate,
spacing, object. -/
def Serializer.write_po {τ : Type} (s : Serializer τ) (t : Triple3 τ) : Serializer τ :=
  let s2 := Serializer.writeIndent { s with target := s.target ++ " ;\n".data }
  { s2 with target := s2.target ++ s2.config.ser t.p ++ s2.config.space ++ s2.config.ser t.o }

/-- Embeds `Serializer::write_o` (lines 115-121): the object
separator `","`, spacing, then the object. -/
def Serializer.write_o {τ : Type} (s : Serializer τ) (t : Triple3 τ) : Serializer τ :=
  { s with target := s.target ++ ",".data ++ s.config.space ++ s.config.ser t.o }

/-- Embeds `Serializer::finish_block` (lines 123-127): the block
terminator `" ."` plus a blank line, and the indentation level reset
to zero. -/
def Serializer.finish_block {τ : Type} (s : Serializer τ) : Serializer τ :=
  { s with target := s.target ++ " .\n\n".data, indent_level := 0 }

/-- Embeds the per-triple match of `Serializer::serialize` (lines
58-71), with the source's guards; the unreachable arm keeps the state
unchanged. -/
def Serializer.step {τ : Type} [DecidableEq τ] (s : Serializer τ)
    (lastTri : Option (Triple3 τ)) (t : Triple3 τ) : Serializer τ :=
  match lastTri with
  | none => s.write_spo t
  | some lt =>
    if lt.s ≠ t.s then (s.finish_block).write_spo t
    else if lt.s = t.s ∧ lt.p ≠ t.p then s.write_po t
    else if lt.s = t.s ∧ lt.p = t.p then s.write_o t
    else s

/-- The loop of `Serializer::serialize` (lines 53-77), carrying the
last triple seen. -/
def Serializer.serializeFrom {τ : Type} [DecidableEq τ] :
    Serializer τ → Option (Triple3 τ) → List (Triple3 τ) → Serializer τ
  | s, _, [] => s
  | s, lastTri, t :: ts => Serializer.serializeFrom (s.step lastTri t) (some t) ts

/-- Embeds `Serializer::serialize` over a list of triples. -/
def Serializer.serialize {τ : Type} [DecidableEq τ]
    (s : Serializer τ) (ts : List (Triple3 τ)) : Serializer τ :=
  Serializer.serializeFrom s none ts

/-- Embeds `Serializer::finish` (lines 79-83): terminate the open
block unconditionally and hand back the target. -/
def Serializer.finish {τ : Type} (s : Serializer τ) : Str :=
  (Serializer.finish_block s).target

/-- C9: the per-triple step of the streaming serializer follows the
four-case state machine on the previous triple `lt` and the current
triple `t`: no previous triple writes the full `S P O` (and bumps the
indent level); a subject change first writes the block terminator,
resetting the indent level to zero, and then writes `S P O` (leaving
level 1); same subject with a new predicate writes the predicate
separator, the indentation, then `P O`, keeping the level; same
subject and predicate writes only the object separator and `O`. -/
theorem serializer_step_cases :
    ∀ {τ : Type} [DecidableEq τ] (s : Serializer τ) (lt t : Triple3 τ),
      (Serializer.step s none t
        = { s with
            target := s.target ++ s.config.ser t.s ++ s.config.space
              ++ s.config.ser t.p ++ s.config.space ++ s.config.ser t.o,
            indent_level := s.indent_level + 1 })
      ∧ (lt.s ≠ t.s → Serializer.step s (some lt) t
        = { s with
            target := s.target ++ " .\n\n".data ++ s.config.ser t.s ++ s.config.space
              ++ s.config.ser t.p ++ s.config.space ++ s.config.ser t.o,
            indent_level := 1 })
      ∧ (lt.s = t.s → lt.p ≠ t.p → Serializer.step s (some lt) t
        = { s with
            target := s.target ++ " ;\n".data
              ++ List.flatten (List.replicate s.indent_level s.config.indent)
              ++ s.config.ser t.p ++ s.config.space ++ s.config.ser t.o })
      ∧ (lt.s = t.s → lt.p = t.p → Serializer.step s (some lt) t
        = { s with
            target := s.target ++ ",".data ++ s.config.space ++ s.config.ser t.o }) := by
  intro τ _ s lt t
  refine ⟨?_, ?_, ?_, ?_⟩
  · simp [Serializer.step, Serializer.write_spo, List.append_assoc]
  · intro h
    simp [Serializer.step, Serializer.finish_block, Serializer.write_spo, h,
      List.append_assoc]
  · intro hs hp
    simp [Serializer.step, Serializer.write_po, Serializer.writeIndent, hs, hp,
      List.append_assoc]
  · intro hs hp
    simp [Serializer.step, Serializer.write_o, hs, hp, List.append_assoc]

/-- A concrete configuration over `Nat` terms for the serializer
witnesses. -/
def natCfg : SerConfig Nat :=
  ⟨[("ex".data, "http://ex.org/".data)], some "http://base/".data,
    "  ".data, " ".data, fun n => Nat.toDigits 10 n⟩

/-- Witness for C9: the four cases at concrete triples over `Nat`
terms. -/
theorem serializer_step_cases_witness :
    (Serializer.step (Serializer.new natCfg) none ⟨1, 2, 3⟩
      = { Serializer.new natCfg with
          target := (Serializer.new natCfg).target ++ natCfg.ser 1 ++ natCfg.space
            ++ natCfg.ser 2 ++ natCfg.space ++ natCfg.ser 3,
          indent_level := (Serializer.new natCfg).indent_level + 1 })
    ∧ (Serializer.step (Serializer.new natCfg) (some ⟨7, 2, 3⟩) ⟨1, 2, 3⟩
      = { Serializer.new natCfg with
          target := (Serializer.new natCfg).target ++ " .\n\n".data
            ++ natCfg.ser 1 ++ natCfg.space ++ natCfg.ser 2 ++ natCfg.space ++ natCfg.ser 3,
          indent_level := 1 })
    ∧ (Serializer.step (Serializer.new natCfg) (some ⟨1, 7, 3⟩) ⟨1, 2, 3⟩
      = { Serializer.new natCfg with
          target := (Serializer.new natCfg).target ++ " ;\n".data
            ++ List.flatten (List.replicate (Serializer.new natCfg).indent_level natCfg.indent)
            ++ natCfg.ser 2 ++ natCfg.space ++ natCfg.ser 3 })
    ∧ (Serializer.step (Serializer.new natCfg) (some ⟨1, 2, 7⟩) ⟨1, 2, 3⟩
      = { Serializer.new natCfg with
          target := (Serializer.new natCfg).target ++ ",".data
            ++ natCfg.space ++ natCfg.ser 3 }) :=
  ⟨(serializer_step_cases (Serializer.new natCfg) ⟨7, 2, 3⟩ ⟨1, 2, 3⟩).1,
    (serializer_step_cases (Serializer.new natCfg) ⟨7, 2, 3⟩ ⟨1, 2, 3⟩).2.1 (by decide),
    (serializer_step_cases (Serializer.new natCfg) ⟨1, 7, 3⟩ ⟨1, 2, 3⟩).2.2.1 rfl (by decide),
    (serializer_step_cases (Serializer.new natCfg) ⟨1, 2, 7⟩ ⟨1, 2, 3⟩).2.2.2 rfl rfl⟩

/-- C10: `finish` unconditionally appends the block terminator
`" ."` plus a blank line to the target (and `finish_block` resets the
indent level), even when no triple was ever serialized: finishing a
fresh serializer still appends the terminator right after the
preamble. -/
theorem finish_unconditional :
    (∀ {τ : Type} (s : Serializer τ),
      Serializer.finish s = s.target ++ " .\n\n".data
      ∧ (Serializer.finish_block s).indent_level = 0)
    ∧ Serializer.finish (Serializer.new natCfg)
        = writePreamble natCfg ++ " .\n\n".data := by
  refine ⟨fun s => ⟨rfl, rfl⟩, rfl⟩

end Metis
